import Mathlib

/-!
Shallow embedding of the Go package daytime (SPTolkachev/daytime),
file daytime.go, for verification of its specification.

Modelling conventions:
* Go strings and byte slices carrying UTF-8 text are modelled as Lean String
  (logically a list of Char, matching Go rune-level semantics; the regex,
  trim and split operations of the source act rune-compatibly on the
  well-formed inputs of this package).
* Go (T, error) return pairs are modelled as T products with Option GoErr;
  a nil error is none.
* The wrapped errors of github.com/pkg/errors are modelled by the inductive
  GoErr: errors.Wrap(e, msg) is GoErr.wrap msg e, and the three sentinel
  errors of the package are the three base constructors.
* Pointer receivers (*DayTime) are modelled as Option DayTime: none is the
  nil pointer.  A decode method that assigns through the pointer returns the
  new pointee state together with the error, so mutation is explicit state
  passing.
* time.Time instants are modelled as Int nanoseconds from an arbitrary
  epoch, in a fixed-offset time zone (no DST transitions modelled; the
  source adds a fixed 24-hour duration, which this matches).  time.Now()
  is a read from an ambient clock, modelled as an explicit stream of
  readings consumed one per call.
* Machine int is modelled as unbounded Int; no value reachable in this
  package approaches the 64-bit bounds (parsed fields are at most two
  decimal digits).
-/

/-- Wrapped-error model for github.com/pkg/errors values used by daytime.go:
objIsNil, invalid and unexpected are the sentinels ErrObjIsNil, ErrInvalid,
ErrUnexpected; convErr stands for a strconv conversion error on the given
input text; wrap ctx e is errors.Wrap(e, ctx). -/
inductive GoErr : Type where
  | objIsNil : GoErr
  | invalid : GoErr
  | unexpected : GoErr
  | convErr : String → GoErr
  | wrap : String → GoErr → GoErr
deriving DecidableEq, Repr

/-- The struct DayTime of daytime.go: three int fields. -/
structure DayTime : Type where
  hour : Int
  minute : Int
  second : Int
deriving DecidableEq, Repr

/-- Go Day constant, 24 * time.Hour, in nanoseconds. -/
def Day : Int := 86400 * 1000000000

/-- Go DefaultTime constant. -/
def DefaultTime : String := "00:00"

/-- Character class of the regexp escape d in the pattern of daytimeRegex:
exactly the ASCII digits. -/
def isDigitChar (c : Char) : Bool := 48 ≤ c.toNat && c.toNat ≤ 57

/-- Rune-level acceptance of the anchored regexp of daytime.go: two
digits, colon, two digits, optionally colon and two digits. -/
def daytimeRegexAccepts : List Char → Bool
  | [a, b, c, d, e] =>
      isDigitChar a && isDigitChar b && c = ':' && isDigitChar d && isDigitChar e
  | [a, b, c, d, e, f, g, h] =>
      isDigitChar a && isDigitChar b && c = ':' && isDigitChar d && isDigitChar e
        && f = ':' && isDigitChar g && isDigitChar h
  | _ => false

/-- Whole-string match of daytimeRegex: FindAllStringSubmatch on this
anchored pattern finds a match exactly when the whole string has the
accepted shape. -/
def matchesDaytimeRegex (s : String) : Bool := daytimeRegexAccepts s.data

/-- Shape of an HH:MM text at rune level, as the specification describes
it: exactly two digits, colon, two digits. -/
def shapeHHMM (l : List Char) : Prop :=
  ∃ a b c d, l = [a, b, ':', c, d] ∧ isDigitChar a = true ∧ isDigitChar b = true
    ∧ isDigitChar c = true ∧ isDigitChar d = true

/-- Shape of an HH:MM:SS text at rune level, as the specification
describes it: two digits, colon, two digits, colon, two digits. -/
def shapeHHMMSS (l : List Char) : Prop :=
  ∃ a b c d e f, l = [a, b, ':', c, d, ':', e, f] ∧ isDigitChar a = true
    ∧ isDigitChar b = true ∧ isDigitChar c = true ∧ isDigitChar d = true
    ∧ isDigitChar e = true ∧ isDigitChar f = true

/-- Numeric value of a two-digit component from its characters. -/
def twoDigitVal (a b : Char) : Int :=
  Int.ofNat ((a.toNat - 48) * 10 + (b.toNat - 48))

/-- The cutset of strings.Trim in Parse: space and tab only. -/
def isSpaceTab (c : Char) : Bool := c = ' ' || c = '\t'

/-- Go strings.Trim(s, cutset) for the two-character cutset of Parse:
drop leading and trailing space and tab characters. -/
def trimSpaceTab (s : String) : String :=
  String.mk (((s.data.dropWhile isSpaceTab).reverse.dropWhile isSpaceTab).reverse)

/-- Digit accumulation loop of strconv.Atoi over the remaining characters. -/
def atoiCore : List Char → Nat → Option Nat
  | [], acc => some acc
  | c :: rest, acc =>
      if isDigitChar c then atoiCore rest (acc * 10 + (c.toNat - 48)) else none

/-- Go strconv.Atoi: optional single leading sign followed by at least one
ASCII digit; anything else is a syntax error (none).  64-bit overflow is not
modelled: every call in this package receives at most two digits. -/
def atoi (s : String) : Option Int :=
  match s.data with
  | [] => none
  | c :: rest =>
      if c = '+' then
        if rest.isEmpty then none else (atoiCore rest 0).map Int.ofNat
      else if c = '-' then
        if rest.isEmpty then none else (atoiCore rest 0).map (fun n => -(Int.ofNat n))
      else
        (atoiCore (c :: rest) 0).map Int.ofNat

/-- Split of a character list at every occurrence of sep, the single-rune
case of Go strings.Split. -/
def splitChar (sep : Char) : List Char → List (List Char)
  | [] => [[]]
  | c :: rest =>
      if c = sep then [] :: splitChar sep rest
      else
        match splitChar sep rest with
        | [] => [[c]]
        | h :: t => (c :: h) :: t

/-- Go strings.Split(s, separator) for the single-character separator of
Parse. -/
def goSplit (s : String) (sep : Char) : List String :=
  (splitChar sep s.data).map String.mk

/-- Go func New of daytime.go: validates hour, minute, second in order and
returns the triple, or the zero struct with a wrapped ErrInvalid naming the
first out-of-range field. -/
def New (hour : Int) (minute : Int) (second : Int) : DayTime × Option GoErr :=
  if hour < 0 ∨ hour > 23 then
    (⟨0, 0, 0⟩, some (.wrap ("value of hour is " ++ toString hour) .invalid))
  else if minute < 0 ∨ minute > 59 then
    (⟨0, 0, 0⟩, some (.wrap ("value of minute is " ++ toString minute) .invalid))
  else if second < 0 ∨ second > 59 then
    (⟨0, 0, 0⟩, some (.wrap ("value of second is " ++ toString second) .invalid))
  else
    (⟨hour, minute, second⟩, none)

/-- Go func Parse of daytime.go: trim space and tab, match the anchored
regexp, split on the colon, convert each component with strconv.Atoi
(second defaults to 0 when absent), and finish through New.  Component
indexing is modelled with getD; the regex match guarantees the indexes
used are present. -/
def Parse (value : String) : DayTime × Option GoErr :=
  let v := trimSpaceTab value
  if matchesDaytimeRegex v = false then
    (⟨0, 0, 0⟩, some (.wrap ("value '" ++ v ++ "'") .invalid))
  else
    let values := goSplit v ':'
    match atoi (values.getD 0 "") with
    | none => (⟨0, 0, 0⟩, some (.wrap "hour" (.convErr (values.getD 0 ""))))
    | some hour =>
        match atoi (values.getD 1 "") with
        | none => (⟨0, 0, 0⟩, some (.wrap "minute" (.convErr (values.getD 1 ""))))
        | some minute =>
            if values.length > 2 then
              match atoi (values.getD 2 "") with
              | none => (⟨0, 0, 0⟩, some (.wrap "second" (.convErr (values.getD 2 ""))))
              | some second => New hour minute second
            else
              New hour minute 0

/-- Conversion and padding of one field in method String: strconv.Itoa
followed by prefixing a single zero exactly when the rendering has one
character. -/
def goPad2 (n : Int) : String :=
  let s := toString n
  if s.length = 1 then "0" ++ s else s

/-- Go method String of daytime.go on the possibly-nil receiver: nil
renders DefaultTime; otherwise hour and minute padded and joined by a
colon, with the second appended the same way only when it is nonzero. -/
def DayTime.String (t : Option DayTime) : String :=
  match t with
  | none => DefaultTime
  | some d =>
      let value := goPad2 d.hour ++ ":" ++ goPad2 d.minute
      if d.second = 0 then value else value ++ ":" ++ goPad2 d.second

/-- Ambient clock: the stream of instants that successive time.Now() calls
return, together with how many calls have happened. -/
structure Clock : Type where
  readings : Nat → Int
  idx : Nat

/-- One call of time.Now(): returns the next reading and advances the
clock. -/
def timeNow (c : Clock) : Int × Clock := (c.readings c.idx, ⟨c.readings, c.idx + 1⟩)

/-- A clock all of whose readings are the same instant. -/
def Clock.const (now : Int) : Clock := ⟨fun _ => now, 0⟩

/-- Nanoseconds since midnight of the stored time of day, with the nil
receiver treated as zero fields, as in the body of method Time. -/
def todNanos (t : Option DayTime) : Int :=
  match t with
  | none => 0
  | some d => (3600 * d.hour + 60 * d.minute + d.second) * 1000000000

/-- Midnight of the calendar day containing the instant now: the effect of
now.Date() in the fixed-offset zone model. -/
def dayStart (now : Int) : Int := Day * (Int.ediv now Day)

/-- Go method Time of daytime.go: one time.Now() call, then the current
calendar date combined with the stored (or zero, when nil) time of day and
a zero sub-second component. -/
def DayTime.Time (t : Option DayTime) (c : Clock) : Int × Clock :=
  let r := timeNow c
  (dayStart r.1 + todNanos t, r.2)

/-- Go method InTheNearFuture of daytime.go: reads time.Now() directly,
then calls Time (which reads time.Now() again), and adds Day exactly when
the computed date-time is strictly before the first reading. -/
def DayTime.InTheNearFuture (t : Option DayTime) (c : Clock) : Int × Clock :=
  let r := timeNow c
  let s := DayTime.Time t r.2
  (if s.1 < r.1 then s.1 + Day else s.1, s.2)

/-- Go method InTheRecentPast of daytime.go: reads time.Now() directly,
then calls Time (which reads time.Now() again), and subtracts Day exactly
when the computed date-time is strictly after the first reading. -/
def DayTime.InTheRecentPast (t : Option DayTime) (c : Clock) : Int × Clock :=
  let r := timeNow c
  let s := DayTime.Time t r.2
  (if r.1 < s.1 then s.1 + (-Day) else s.1, s.2)

/-- Result of Time when every clock reading is the same instant now. -/
def timeAt (t : Option DayTime) (now : Int) : Int :=
  (DayTime.Time t (Clock.const now)).1

/-- Result of InTheNearFuture when every clock reading is the same instant
now. -/
def inTheNearFutureAt (t : Option DayTime) (now : Int) : Int :=
  (DayTime.InTheNearFuture t (Clock.const now)).1

/-- Result of InTheRecentPast when every clock reading is the same instant
now. -/
def inTheRecentPastAt (t : Option DayTime) (now : Int) : Int :=
  (DayTime.InTheRecentPast t (Clock.const now)).1

/-- Abbreviation for the string type, usable inside declarations of the
DayTime namespace where the bare name String refers to the method. -/
abbrev Text : Type := String

/-- Go method MarshalBinary: the bytes of String(), never an error.  The
byte slice is identified with the UTF-8 string it spells. -/
def DayTime.MarshalBinary (t : Option DayTime) : Text × Option GoErr :=
  (DayTime.String t, none)

/-- Go method UnmarshalBinary: nil receiver fails with ErrObjIsNil before
any parsing; a Parse failure is wrapped with context parse and the pointee
keeps its prior value; on success the pointee is overwritten wholesale. -/
def DayTime.UnmarshalBinary (t : Option DayTime) (data : Text) :
    Option DayTime × Option GoErr :=
  match t with
  | none => (none, some .objIsNil)
  | some d =>
      let r := Parse data
      match r.2 with
      | some e => (some d, some (.wrap "parse" e))
      | none => (some r.1, none)

/-- Go method MarshalText: the bytes of String(), never an error. -/
def DayTime.MarshalText (t : Option DayTime) : Text × Option GoErr :=
  (DayTime.String t, none)

/-- Go method UnmarshalText: same body as UnmarshalBinary. -/
def DayTime.UnmarshalText (t : Option DayTime) (data : Text) :
    Option DayTime × Option GoErr :=
  match t with
  | none => (none, some .objIsNil)
  | some d =>
      let r := Parse data
      match r.2 with
      | some e => (some d, some (.wrap "parse" e))
      | none => (some r.1, none)

/-- Go method MarshalJSON: the bytes of String(), never an error. -/
def DayTime.MarshalJSON (t : Option DayTime) : Text × Option GoErr :=
  (DayTime.String t, none)

/-- Go method UnmarshalJSON: same body as UnmarshalBinary. -/
def DayTime.UnmarshalJSON (t : Option DayTime) (data : Text) :
    Option DayTime × Option GoErr :=
  match t with
  | none => (none, some .objIsNil)
  | some d =>
      let r := Parse data
      match r.2 with
      | some e => (some d, some (.wrap "parse" e))
      | none => (some r.1, none)

/-- Go method MarshalCSV: the String() text, never an error. -/
def DayTime.MarshalCSV (t : Option DayTime) : Text × Option GoErr :=
  (DayTime.String t, none)

/-- Go method UnmarshalCSV: same body as UnmarshalBinary on a string
argument. -/
def DayTime.UnmarshalCSV (t : Option DayTime) (str : Text) :
    Option DayTime × Option GoErr :=
  match t with
  | none => (none, some .objIsNil)
  | some d =>
      let r := Parse str
      match r.2 with
      | some e => (some d, some (.wrap "parse" e))
      | none => (some r.1, none)

/-- The dynamic argument of method Scan (Go type any): a byte slice
holding UTF-8 text, a string, or a value of any other concrete type,
abstracted by the type name that the format verb T of fmt would print
for it. -/
inductive ScanSrc : Type where
  | bytes : String → ScanSrc
  | str : String → ScanSrc
  | other : String → ScanSrc
deriving DecidableEq, Repr

/-- Go method Scan of daytime.go: nil receiver fails with ErrObjIsNil
first; a byte slice is converted to its string and a string is taken as
is, any other concrete type fails with wrapped ErrUnexpected naming that
type; the text then goes through Parse exactly as in the other decoders.
The debug fmt.Printf of the byte branch writes to standard output only and
is not modelled. -/
def DayTime.Scan (t : Option DayTime) (src : ScanSrc) :
    Option DayTime × Option GoErr :=
  match t with
  | none => (none, some .objIsNil)
  | some d =>
      match src with
      | .other tyName =>
          (some d, some (.wrap ("type of value '" ++ tyName ++ "'") .unexpected))
      | .bytes s =>
          let r := Parse s
          match r.2 with
          | some e => (some d, some (.wrap "parse" e))
          | none => (some r.1, none)
      | .str s =>
          let r := Parse s
          match r.2 with
          | some e => (some d, some (.wrap "parse" e))
          | none => (some r.1, none)

/-- Go method Value of daytime.go: the driver.Value holding the String()
text, never an error. -/
def DayTime.Value (t : Option DayTime) : Text × Option GoErr :=
  (DayTime.String t, none)

/-- Two-digit zero-padded decimal rendering of a field value, written the
way the specification describes the canonical components (for comparison
with the padding the source builds out of strconv.Itoa). -/
def specPad2 (n : Int) : String :=
  String.mk [Char.ofNat (48 + n.toNat / 10), Char.ofNat (48 + n.toNat % 10)]

/-! Helper lemmas about characters, strings and the parsing pipeline. -/

theorem strData_append (a b : String) : (a ++ b).data = a.data ++ b.data := by
  cases a
  cases b
  rfl

theorem isDigitChar_ne {c : Char} (h : isDigitChar c = true) :
    c ≠ ':' ∧ c ≠ ' ' ∧ c ≠ '\t' ∧ c ≠ '+' ∧ c ≠ '-' := by
  refine ⟨?_, ?_, ?_, ?_, ?_⟩ <;> intro he <;> subst he <;> exact absurd h (by decide)

theorem isSpaceTab_of_digit {c : Char} (h : isDigitChar c = true) :
    isSpaceTab c = false := by
  have h1 := (isDigitChar_ne h).2.1
  have h2 := (isDigitChar_ne h).2.2.1
  simp [isSpaceTab, h1, h2]

theorem dropWhile_all_false {p : Char → Bool} (l : List Char)
    (h : ∀ c ∈ l, p c = false) : l.dropWhile p = l := by
  cases l with
  | nil => rfl
  | cons a t =>
      exact List.dropWhile_cons_of_neg (by simp [h a (List.mem_cons_self a t)])

theorem trim_noop {s : String} (h : ∀ c ∈ s.data, isSpaceTab c = false) :
    trimSpaceTab s = s := by
  unfold trimSpaceTab
  rw [dropWhile_all_false _ h,
    dropWhile_all_false _ (fun c hc => h c (List.mem_reverse.mp hc)),
    List.reverse_reverse]

theorem atoi_pair {a b : Char} (ha : isDigitChar a = true)
    (hb : isDigitChar b = true) :
    atoi (String.mk [a, b]) = some (twoDigitVal a b) := by
  have h1 := (isDigitChar_ne ha).2.2.2.1
  have h2 := (isDigitChar_ne ha).2.2.2.2
  simp [atoi, h1, h2, atoiCore, ha, hb, twoDigitVal]

theorem splitChar_pair {a b c d : Char} (ha : a ≠ ':') (hb : b ≠ ':')
    (hc : c ≠ ':') (hd : d ≠ ':') :
    splitChar ':' [a, b, ':', c, d] = [[a, b], [c, d]] := by
  simp [splitChar, ha, hb, hc, hd]

theorem splitChar_triple {a b c d e f : Char} (ha : a ≠ ':') (hb : b ≠ ':')
    (hc : c ≠ ':') (hd : d ≠ ':') (he : e ≠ ':') (hf : f ≠ ':') :
    splitChar ':' [a, b, ':', c, d, ':', e, f] = [[a, b], [c, d], [e, f]] := by
  simp [splitChar, ha, hb, hc, hd, he, hf]

theorem goPad2_spec : ∀ n : Nat, n < 100 →
    goPad2 (Int.ofNat n) = specPad2 (Int.ofNat n)
      ∧ atoi (goPad2 (Int.ofNat n)) = some (Int.ofNat n) := by decide

theorem charDigit_isDigit : ∀ k : Nat, k < 10 →
    isDigitChar (Char.ofNat (48 + k)) = true := by decide

theorem trim_cons {c : Char} (hc : isSpaceTab c = true) (s : String) :
    trimSpaceTab (String.mk (c :: s.data)) = trimSpaceTab s := by
  unfold trimSpaceTab
  rw [show (String.mk (c :: s.data)).data = c :: s.data from rfl,
    List.dropWhile_cons_of_pos hc]

theorem trim_concat {c : Char} (hc : isSpaceTab c = true) (s : String) :
    trimSpaceTab (String.mk (s.data ++ [c])) = trimSpaceTab s := by
  unfold trimSpaceTab
  rw [show (String.mk (s.data ++ [c])).data = s.data ++ [c] from rfl,
    List.dropWhile_append]
  by_cases he : (s.data.dropWhile isSpaceTab).isEmpty
  · rw [if_pos he, List.isEmpty_iff.mp he]
    rw [List.dropWhile_cons_of_pos hc]
    rfl
  · rw [if_neg he, List.reverse_append, List.reverse_singleton,
      List.singleton_append, List.dropWhile_cons_of_pos hc]

theorem New_ok {h m s : Int} (hh0 : 0 ≤ h) (hh1 : h ≤ 23) (hm0 : 0 ≤ m)
    (hm1 : m ≤ 59) (hs0 : 0 ≤ s) (hs1 : s ≤ 59) :
    New h m s = (⟨h, m, s⟩, none) := by
  unfold New
  rw [if_neg (by omega), if_neg (by omega), if_neg (by omega)]

theorem Parse_shape5 {a b c d : Char} {h m : Int}
    (ha : isDigitChar a = true) (hb : isDigitChar b = true)
    (hc : isDigitChar c = true) (hd : isDigitChar d = true)
    (hA : atoi (String.mk [a, b]) = some h)
    (hB : atoi (String.mk [c, d]) = some m) :
    Parse (String.mk [a, b, ':', c, d]) = New h m 0 := by
  have htrim : trimSpaceTab (String.mk [a, b, ':', c, d])
      = String.mk [a, b, ':', c, d] := by
    refine trim_noop ?_
    intro x hx
    simp only [List.mem_cons, List.not_mem_nil, or_false] at hx
    rcases hx with rfl | rfl | rfl | rfl | rfl
    exacts [isSpaceTab_of_digit ha, isSpaceTab_of_digit hb, by decide,
      isSpaceTab_of_digit hc, isSpaceTab_of_digit hd]
  have hmatch : matchesDaytimeRegex (String.mk [a, b, ':', c, d]) = true := by
    simp [matchesDaytimeRegex, daytimeRegexAccepts, ha, hb, hc, hd]
  have hsplit : goSplit (String.mk [a, b, ':', c, d]) ':'
      = [String.mk [a, b], String.mk [c, d]] := by
    unfold goSplit
    rw [show (String.mk [a, b, ':', c, d]).data = [a, b, ':', c, d] from rfl,
      splitChar_pair (isDigitChar_ne ha).1 (isDigitChar_ne hb).1
        (isDigitChar_ne hc).1 (isDigitChar_ne hd).1]
    rfl
  simp [Parse, htrim, hmatch, hsplit, hA, hB]

theorem Parse_shape8 {a b c d e f : Char} {h m s : Int}
    (ha : isDigitChar a = true) (hb : isDigitChar b = true)
    (hc : isDigitChar c = true) (hd : isDigitChar d = true)
    (he : isDigitChar e = true) (hf : isDigitChar f = true)
    (hA : atoi (String.mk [a, b]) = some h)
    (hB : atoi (String.mk [c, d]) = some m)
    (hC : atoi (String.mk [e, f]) = some s) :
    Parse (String.mk [a, b, ':', c, d, ':', e, f]) = New h m s := by
  have htrim : trimSpaceTab (String.mk [a, b, ':', c, d, ':', e, f])
      = String.mk [a, b, ':', c, d, ':', e, f] := by
    refine trim_noop ?_
    intro x hx
    simp only [List.mem_cons, List.not_mem_nil, or_false] at hx
    rcases hx with rfl | rfl | rfl | rfl | rfl | rfl | rfl | rfl
    exacts [isSpaceTab_of_digit ha, isSpaceTab_of_digit hb, by decide,
      isSpaceTab_of_digit hc, isSpaceTab_of_digit hd, by decide,
      isSpaceTab_of_digit he, isSpaceTab_of_digit hf]
  have hmatch : matchesDaytimeRegex (String.mk [a, b, ':', c, d, ':', e, f])
      = true := by
    simp [matchesDaytimeRegex, daytimeRegexAccepts, ha, hb, hc, hd, he, hf]
  have hsplit : goSplit (String.mk [a, b, ':', c, d, ':', e, f]) ':'
      = [String.mk [a, b], String.mk [c, d], String.mk [e, f]] := by
    unfold goSplit
    rw [show (String.mk [a, b, ':', c, d, ':', e, f]).data
        = [a, b, ':', c, d, ':', e, f] from rfl,
      splitChar_triple (isDigitChar_ne ha).1 (isDigitChar_ne hb).1
        (isDigitChar_ne hc).1 (isDigitChar_ne hd).1
        (isDigitChar_ne he).1 (isDigitChar_ne hf).1]
    rfl
  simp [Parse, htrim, hmatch, hsplit, hA, hB, hC]

theorem daytimeRegexAccepts_iff (l : List Char) :
    daytimeRegexAccepts l = true ↔ shapeHHMM l ∨ shapeHHMMSS l := by
  constructor
  · intro hl
    rcases l with _ | ⟨a, _ | ⟨b, _ | ⟨c, _ | ⟨d, _ | ⟨e, _ | ⟨f, _ | ⟨g, _ | ⟨h, _ | ⟨i, t⟩⟩⟩⟩⟩⟩⟩⟩⟩ <;>
      simp [daytimeRegexAccepts] at hl
    · obtain ⟨⟨⟨⟨h1, h2⟩, h3⟩, h4⟩, h5⟩ := hl
      subst h3
      exact Or.inl ⟨a, b, d, e, rfl, h1, h2, h4, h5⟩
    · obtain ⟨⟨⟨⟨⟨⟨⟨h1, h2⟩, h3⟩, h4⟩, h5⟩, h6⟩, h7⟩, h8⟩ := hl
      subst h3
      subst h6
      exact Or.inr ⟨a, b, d, e, g, h, rfl, h1, h2, h4, h5, h7, h8⟩
  · intro hl
    rcases hl with ⟨a, b, c, d, hleq, h1, h2, h3, h4⟩ |
      ⟨a, b, c, d, e, f, hleq, h1, h2, h3, h4, h5, h6⟩
    · subst hleq
      simp [daytimeRegexAccepts, h1, h2, h3, h4]
    · subst hleq
      simp [daytimeRegexAccepts, h1, h2, h3, h4, h5, h6]

theorem Parse_nomatch {s : String}
    (h : matchesDaytimeRegex (trimSpaceTab s) = false) :
    Parse s = (⟨0, 0, 0⟩, some (.wrap ("value '" ++ trimSpaceTab s ++ "'") .invalid)) := by
  simp [Parse, h]

theorem Parse_trim_congr {s1 s2 : String}
    (h : trimSpaceTab s1 = trimSpaceTab s2) : Parse s1 = Parse s2 := by
  simp only [Parse, h]

theorem Parse_ok_match {s : String} (h : (Parse s).2 = none) :
    matchesDaytimeRegex (trimSpaceTab s) = true := by
  by_contra hne
  rw [Parse_nomatch (Bool.eq_false_iff.mpr hne)] at h
  simp at h

theorem goPad2_int {h : Int} (h0 : 0 ≤ h) (h1 : h < 100) :
    goPad2 h = specPad2 h ∧ atoi (goPad2 h) = some h := by
  have hn : Int.ofNat h.toNat = h := Int.toNat_of_nonneg h0
  rw [← hn]
  exact goPad2_spec h.toNat (by omega)

theorem Parse_roundtrip {h m s : Int} (hh0 : 0 ≤ h) (hh1 : h ≤ 23)
    (hm0 : 0 ≤ m) (hm1 : m ≤ 59) (hs0 : 0 ≤ s) (hs1 : s ≤ 59) :
    Parse (DayTime.String (some ⟨h, m, s⟩)) = (⟨h, m, s⟩, none) := by
  obtain ⟨hpadh, hatoih⟩ := goPad2_int hh0 (by omega)
  obtain ⟨hpadm, hatoim⟩ := goPad2_int hm0 (by omega)
  obtain ⟨hpads, hatois⟩ := goPad2_int hs0 (by omega)
  have dh1 : isDigitChar (Char.ofNat (48 + h.toNat / 10)) = true :=
    charDigit_isDigit _ (by omega)
  have dh2 : isDigitChar (Char.ofNat (48 + h.toNat % 10)) = true :=
    charDigit_isDigit _ (by omega)
  have dm1 : isDigitChar (Char.ofNat (48 + m.toNat / 10)) = true :=
    charDigit_isDigit _ (by omega)
  have dm2 : isDigitChar (Char.ofNat (48 + m.toNat % 10)) = true :=
    charDigit_isDigit _ (by omega)
  have ds1 : isDigitChar (Char.ofNat (48 + s.toNat / 10)) = true :=
    charDigit_isDigit _ (by omega)
  have ds2 : isDigitChar (Char.ofNat (48 + s.toNat % 10)) = true :=
    charDigit_isDigit _ (by omega)
  have hA : atoi (String.mk [Char.ofNat (48 + h.toNat / 10),
      Char.ofNat (48 + h.toNat % 10)]) = some h := by
    rw [← specPad2]
    rw [← hpadh]
    exact hatoih
  have hB : atoi (String.mk [Char.ofNat (48 + m.toNat / 10),
      Char.ofNat (48 + m.toNat % 10)]) = some m := by
    rw [← specPad2]
    rw [← hpadm]
    exact hatoim
  have hC : atoi (String.mk [Char.ofNat (48 + s.toNat / 10),
      Char.ofNat (48 + s.toNat % 10)]) = some s := by
    rw [← specPad2]
    rw [← hpads]
    exact hatois
  by_cases hz : s = 0
  · subst hz
    have hS : DayTime.String (some ⟨h, m, 0⟩) = specPad2 h ++ ":" ++ specPad2 m := by
      simp [DayTime.String, hpadh, hpadm]
    have hdata : (specPad2 h ++ ":" ++ specPad2 m).data
        = [Char.ofNat (48 + h.toNat / 10), Char.ofNat (48 + h.toNat % 10), ':',
           Char.ofNat (48 + m.toNat / 10), Char.ofNat (48 + m.toNat % 10)] := by
      rw [strData_append, strData_append]
      rfl
    have hS2 : specPad2 h ++ ":" ++ specPad2 m
        = String.mk [Char.ofNat (48 + h.toNat / 10), Char.ofNat (48 + h.toNat % 10), ':',
           Char.ofNat (48 + m.toNat / 10), Char.ofNat (48 + m.toNat % 10)] := by
      rw [← hdata]
    rw [hS, hS2, Parse_shape5 dh1 dh2 dm1 dm2 hA hB]
    exact New_ok hh0 hh1 hm0 hm1 (by omega) (by omega)
  · have hS : DayTime.String (some ⟨h, m, s⟩)
        = specPad2 h ++ ":" ++ specPad2 m ++ ":" ++ specPad2 s := by
      simp [DayTime.String, hpadh, hpadm, hpads, hz]
    have hdata : (specPad2 h ++ ":" ++ specPad2 m ++ ":" ++ specPad2 s).data
        = [Char.ofNat (48 + h.toNat / 10), Char.ofNat (48 + h.toNat % 10), ':',
           Char.ofNat (48 + m.toNat / 10), Char.ofNat (48 + m.toNat % 10), ':',
           Char.ofNat (48 + s.toNat / 10), Char.ofNat (48 + s.toNat % 10)] := by
      rw [strData_append, strData_append, strData_append, strData_append]
      rfl
    have hS2 : specPad2 h ++ ":" ++ specPad2 m ++ ":" ++ specPad2 s
        = String.mk [Char.ofNat (48 + h.toNat / 10), Char.ofNat (48 + h.toNat % 10), ':',
           Char.ofNat (48 + m.toNat / 10), Char.ofNat (48 + m.toNat % 10), ':',
           Char.ofNat (48 + s.toNat / 10), Char.ofNat (48 + s.toNat % 10)] := by
      rw [← hdata]
    rw [hS, hS2, Parse_shape8 dh1 dh2 dm1 dm2 ds1 ds2 hA hB hC]
    exact New_ok hh0 hh1 hm0 hm1 hs0 hs1

/-! Claim theorems. -/

/-- C1: with the current moment read as a single instant (all clock
readings equal), InTheNearFuture returns Time() plus exactly 24 hours when
Time() is strictly before now and Time() unchanged otherwise;
InTheRecentPast mirrors this with minus 24 hours on strictly after; exact
equality with now triggers no rollover in either direction.  Holds for
every DayTime-or-absent receiver. -/
theorem c1_anchoring_rollover (t : Option DayTime) (now : Int) :
    (timeAt t now < now → inTheNearFutureAt t now = timeAt t now + Day) ∧
    (¬ timeAt t now < now → inTheNearFutureAt t now = timeAt t now) ∧
    (now < timeAt t now → inTheRecentPastAt t now = timeAt t now - Day) ∧
    (¬ now < timeAt t now → inTheRecentPastAt t now = timeAt t now) ∧
    (timeAt t now = now →
      inTheNearFutureAt t now = timeAt t now ∧
        inTheRecentPastAt t now = timeAt t now) := by
  refine ⟨?_, ?_, ?_, ?_, ?_⟩
  · intro hlt
    simp only [inTheNearFutureAt, DayTime.InTheNearFuture, timeAt, DayTime.Time,
      timeNow, Clock.const] at hlt ⊢
    rw [if_pos hlt]
  · intro hge
    simp only [inTheNearFutureAt, DayTime.InTheNearFuture, timeAt, DayTime.Time,
      timeNow, Clock.const] at hge ⊢
    rw [if_neg hge]
  · intro hgt
    simp only [inTheRecentPastAt, DayTime.InTheRecentPast, timeAt, DayTime.Time,
      timeNow, Clock.const] at hgt ⊢
    rw [if_pos hgt]
    omega
  · intro hle
    simp only [inTheRecentPastAt, DayTime.InTheRecentPast, timeAt, DayTime.Time,
      timeNow, Clock.const] at hle ⊢
    rw [if_neg hle]
  · intro heq
    constructor
    · simp only [inTheNearFutureAt, DayTime.InTheNearFuture, timeAt, DayTime.Time,
        timeNow, Clock.const] at heq ⊢
      rw [if_neg (by omega)]
    · simp only [inTheRecentPastAt, DayTime.InTheRecentPast, timeAt, DayTime.Time,
        timeNow, Clock.const] at heq ⊢
      rw [if_neg (by omega)]

/-- C1 witness: concrete instances of every rollover direction, including
the exact-equality boundary. -/
theorem c1_anchoring_rollover_witness :
    inTheNearFutureAt (some ⟨1, 2, 3⟩) (2 * Day + 4000 * 1000000000)
      = timeAt (some ⟨1, 2, 3⟩) (2 * Day + 4000 * 1000000000) + Day ∧
    inTheNearFutureAt (some ⟨1, 2, 3⟩) Day = timeAt (some ⟨1, 2, 3⟩) Day ∧
    inTheRecentPastAt (some ⟨1, 2, 3⟩) Day = timeAt (some ⟨1, 2, 3⟩) Day - Day ∧
    inTheRecentPastAt (some ⟨1, 2, 3⟩) (2 * Day + 4000 * 1000000000)
      = timeAt (some ⟨1, 2, 3⟩) (2 * Day + 4000 * 1000000000) ∧
    (inTheNearFutureAt none 0 = timeAt none 0 ∧ inTheRecentPastAt none 0 = timeAt none 0) :=
  ⟨(c1_anchoring_rollover (some ⟨1, 2, 3⟩) (2 * Day + 4000 * 1000000000)).1 (by decide),
   (c1_anchoring_rollover (some ⟨1, 2, 3⟩) Day).2.1 (by decide),
   (c1_anchoring_rollover (some ⟨1, 2, 3⟩) Day).2.2.1 (by decide),
   (c1_anchoring_rollover (some ⟨1, 2, 3⟩) (2 * Day + 4000 * 1000000000)).2.2.2.1 (by decide),
   (c1_anchoring_rollover none 0).2.2.2.2 (by decide)⟩

/-- C8 counterexample: InTheNearFuture does not read the ambient clock
exactly once: it consumes two readings (one directly, one inside the
nested Time() call), and two clocks whose first readings agree can give
different results, so its result is not a function of the receiver and a
single clock reading. -/
theorem c8_counterexample :
    (Clock.mk (fun _ => 100) 0).idx
        = (Clock.mk (fun n => if n = 0 then 100 else 2 * Day) 0).idx ∧
    (Clock.mk (fun _ => (100 : Int)) 0).readings 0
        = (Clock.mk (fun n => if n = 0 then 100 else 2 * Day) 0).readings 0 ∧
    (DayTime.InTheNearFuture none (Clock.mk (fun _ => 100) 0)).1
        ≠ (DayTime.InTheNearFuture none (Clock.mk (fun n => if n = 0 then 100 else 2 * Day) 0)).1 ∧
    (DayTime.InTheNearFuture none (Clock.mk (fun _ => 100) 0)).2.idx = 2 := by
  refine ⟨rfl, rfl, ?_, rfl⟩
  decide

/-- C8 amended: Time reads the ambient current moment exactly once per
call and its result is a function of the receiver and that single reading;
InTheNearFuture and InTheRecentPast each read the clock exactly twice
(once directly and once inside the nested Time() call), and when both
readings return the same instant they agree with the single-instant
anchoring functions. -/
theorem c8_clock_reads (t : Option DayTime) (c : Clock) :
    (DayTime.Time t c).2 = ⟨c.readings, c.idx + 1⟩ ∧
    (∀ c' : Clock, c'.readings c'.idx = c.readings c.idx →
      (DayTime.Time t c').1 = (DayTime.Time t c).1) ∧
    (DayTime.InTheNearFuture t c).2 = ⟨c.readings, c.idx + 2⟩ ∧
    (DayTime.InTheRecentPast t c).2 = ⟨c.readings, c.idx + 2⟩ ∧
    (∀ now : Int, c.readings c.idx = now → c.readings (c.idx + 1) = now →
      (DayTime.InTheNearFuture t c).1 = inTheNearFutureAt t now ∧
      (DayTime.InTheRecentPast t c).1 = inTheRecentPastAt t now) := by
  refine ⟨rfl, ?_, rfl, rfl, ?_⟩
  · intro c' hr
    simp only [DayTime.Time, timeNow, hr]
  · intro now h0 h1
    constructor
    · simp only [DayTime.InTheNearFuture, inTheNearFutureAt, DayTime.Time,
        timeNow, Clock.const, h0, h1]
    · simp only [DayTime.InTheRecentPast, inTheRecentPastAt, DayTime.Time,
        timeNow, Clock.const, h0, h1]

/-- C8 amended witness: a concrete constant clock at instant 100 starting
at index 0, with the nil receiver. -/
theorem c8_clock_reads_witness :
    (DayTime.Time none (Clock.mk (fun _ => 100) 0)).1
        = (DayTime.Time none (Clock.mk (fun _ => 100) 5)).1 ∧
    (DayTime.InTheNearFuture none (Clock.mk (fun _ => 100) 0)).1
        = inTheNearFutureAt none 100 ∧
    (DayTime.InTheRecentPast none (Clock.mk (fun _ => 100) 0)).1
        = inTheRecentPastAt none 100 :=
  ⟨(c8_clock_reads none (Clock.mk (fun _ => 100) 5)).2.1
      (Clock.mk (fun _ => 100) 0) rfl,
   ((c8_clock_reads none (Clock.mk (fun _ => 100) 0)).2.2.2.2 100 rfl rfl).1,
   ((c8_clock_reads none (Clock.mk (fun _ => 100) 0)).2.2.2.2 100 rfl rfl).2⟩

/-- C2: for every valid triple, Parse of String of New succeeds and yields
the triple with second 0 when s is 0 and exactly (h, m, s) otherwise. -/
theorem c2_roundtrip (h m s : Int) (hh0 : 0 ≤ h) (hh1 : h ≤ 23)
    (hm0 : 0 ≤ m) (hm1 : m ≤ 59) (hs0 : 0 ≤ s) (hs1 : s ≤ 59) :
    New h m s = (⟨h, m, s⟩, none) ∧
    Parse (DayTime.String (some (New h m s).1)) =
      (⟨h, m, if s = 0 then 0 else s⟩, none) := by
  have hnew := New_ok hh0 hh1 hm0 hm1 hs0 hs1
  refine ⟨hnew, ?_⟩
  rw [hnew]
  have hif : (if s = 0 then (0 : Int) else s) = s := by
    by_cases hz : s = 0 <;> simp [hz]
  rw [hif]
  exact Parse_roundtrip hh0 hh1 hm0 hm1 hs0 hs1

/-- C2 witness: the round trip at (1, 2, 3) and at (1, 2, 0). -/
theorem c2_roundtrip_witness :
    Parse (DayTime.String (some (New 1 2 3).1)) =
      (⟨1, 2, if (3 : Int) = 0 then 0 else 3⟩, none) ∧
    Parse (DayTime.String (some (New 1 2 0).1)) =
      (⟨1, 2, if (0 : Int) = 0 then 0 else 0⟩, none) :=
  ⟨(c2_roundtrip 1 2 3 (by decide) (by decide) (by decide) (by decide)
      (by decide) (by decide)).2,
   (c2_roundtrip 1 2 0 (by decide) (by decide) (by decide) (by decide)
      (by decide) (by decide)).2⟩

/-- C4: New succeeds with exactly the given triple, unclamped, iff every
field is in range; otherwise it fails with a wrapped ErrInvalid and the
zero triple, validating hour then minute then second and reporting only
the first failing field. -/
theorem c4_new_validation (h m s : Int) :
    ((0 ≤ h ∧ h ≤ 23 ∧ 0 ≤ m ∧ m ≤ 59 ∧ 0 ≤ s ∧ s ≤ 59) ↔
      New h m s = (⟨h, m, s⟩, none)) ∧
    ((h < 0 ∨ h > 23) →
      New h m s = (⟨0, 0, 0⟩,
        some (.wrap ("value of hour is " ++ toString h) .invalid))) ∧
    (¬(h < 0 ∨ h > 23) → (m < 0 ∨ m > 59) →
      New h m s = (⟨0, 0, 0⟩,
        some (.wrap ("value of minute is " ++ toString m) .invalid))) ∧
    (¬(h < 0 ∨ h > 23) → ¬(m < 0 ∨ m > 59) → (s < 0 ∨ s > 59) →
      New h m s = (⟨0, 0, 0⟩,
        some (.wrap ("value of second is " ++ toString s) .invalid))) := by
  refine ⟨⟨?_, ?_⟩, ?_, ?_, ?_⟩
  · intro hr
    exact New_ok hr.1 hr.2.1 hr.2.2.1 hr.2.2.2.1 hr.2.2.2.2.1 hr.2.2.2.2.2
  · intro he
    by_cases c1 : h < 0 ∨ h > 23
    · rw [New, if_pos c1] at he
      simp at he
    · by_cases c2 : m < 0 ∨ m > 59
      · rw [New, if_neg c1, if_pos c2] at he
        simp at he
      · by_cases c3 : s < 0 ∨ s > 59
        · rw [New, if_neg c1, if_neg c2, if_pos c3] at he
          simp at he
        · omega
  · intro h1
    rw [New, if_pos h1]
  · intro h1 h2
    rw [New, if_neg h1, if_pos h2]
  · intro h1 h2 h3
    rw [New, if_neg h1, if_neg h2, if_pos h3]

/-- C4 witness: success at (1, 2, 3) and each field failing first at a
concrete out-of-range input. -/
theorem c4_new_validation_witness :
    New 1 2 3 = (⟨1, 2, 3⟩, none) ∧
    New 24 2 3 = (⟨0, 0, 0⟩, some (.wrap "value of hour is 24" .invalid)) ∧
    New 1 60 3 = (⟨0, 0, 0⟩, some (.wrap "value of minute is 60" .invalid)) ∧
    New 1 2 60 = (⟨0, 0, 0⟩, some (.wrap "value of second is 60" .invalid)) :=
  ⟨(c4_new_validation 1 2 3).1.mp (by decide),
   (c4_new_validation 24 2 3).2.1 (by decide),
   (c4_new_validation 1 60 3).2.2.1 (by decide) (by decide),
   (c4_new_validation 1 2 60).2.2.2 (by decide) (by decide) (by decide)⟩

/-- C6: String() renders the nil receiver as 00:00; a present value
renders the hour and minute as two-digit zero-padded decimal joined by a
colon, omitting the seconds component exactly when second is 0 and
otherwise appending a colon and the two-digit zero-padded second;
(1,2,3) renders 01:02:03 and (1,2,0) renders 01:02. -/
theorem c6_string_rendering :
    DayTime.String none = "00:00" ∧
    (∀ h m s : Int, 0 ≤ h → h ≤ 23 → 0 ≤ m → m ≤ 59 → 0 ≤ s → s ≤ 59 →
      DayTime.String (some ⟨h, m, s⟩) =
        if s = 0 then specPad2 h ++ ":" ++ specPad2 m
        else specPad2 h ++ ":" ++ specPad2 m ++ ":" ++ specPad2 s) ∧
    DayTime.String (some ⟨1, 2, 3⟩) = "01:02:03" ∧
    DayTime.String (some ⟨1, 2, 0⟩) = "01:02" := by
  refine ⟨rfl, ?_, by decide, by decide⟩
  intro h m s hh0 hh1 hm0 hm1 hs0 hs1
  obtain ⟨hpadh, -⟩ := goPad2_int hh0 (by omega)
  obtain ⟨hpadm, -⟩ := goPad2_int hm0 (by omega)
  obtain ⟨hpads, -⟩ := goPad2_int hs0 (by omega)
  by_cases hz : s = 0
  · subst hz
    simp [DayTime.String, hpadh, hpadm]
  · simp [DayTime.String, hpadh, hpadm, hpads, hz]

/-- C6 witness: the rendering equation applied at (1, 2, 3). -/
theorem c6_string_rendering_witness :
    DayTime.String (some ⟨1, 2, 3⟩) =
      if (3 : Int) = 0 then specPad2 1 ++ ":" ++ specPad2 2
      else specPad2 1 ++ ":" ++ specPad2 2 ++ ":" ++ specPad2 3 :=
  c6_string_rendering.2.1 1 2 3 (by decide) (by decide) (by decide)
    (by decide) (by decide) (by decide)

/-- C9: every encode operation returns the String() form of the possibly
nil receiver with a nil error, and on the nil receiver that string is
00:00. -/
theorem c9_encode_family (t : Option DayTime) :
    DayTime.MarshalBinary t = (DayTime.String t, none) ∧
    DayTime.MarshalText t = (DayTime.String t, none) ∧
    DayTime.MarshalJSON t = (DayTime.String t, none) ∧
    DayTime.MarshalCSV t = (DayTime.String t, none) ∧
    DayTime.Value t = (DayTime.String t, none) ∧
    DayTime.String none = "00:00" :=
  ⟨rfl, rfl, rfl, rfl, rfl, rfl⟩

/-- C10: an explicit midnight value renders exactly like the nil
receiver, so every encode adapter emits identical output for the two. -/
theorem c10_midnight_indistinguishable :
    DayTime.String (some ⟨0, 0, 0⟩) = "00:00" ∧
    DayTime.String (some ⟨0, 0, 0⟩) = DayTime.String none ∧
    DayTime.MarshalBinary (some ⟨0, 0, 0⟩) = DayTime.MarshalBinary none ∧
    DayTime.MarshalText (some ⟨0, 0, 0⟩) = DayTime.MarshalText none ∧
    DayTime.MarshalJSON (some ⟨0, 0, 0⟩) = DayTime.MarshalJSON none ∧
    DayTime.MarshalCSV (some ⟨0, 0, 0⟩) = DayTime.MarshalCSV none ∧
    DayTime.Value (some ⟨0, 0, 0⟩) = DayTime.Value none := by
  refine ⟨by decide, by decide, by decide, by decide, by decide, by decide, by decide⟩

/-- C5: every decode operation on the nil receiver fails with ErrObjIsNil
regardless of the input (the check precedes any parsing); on a parse
failure it returns the parse error wrapped with context parse and leaves
the pointee unchanged; only a fully successful parse overwrites the
pointee, wholesale. -/
theorem c5_decode_family (d : DayTime) (data : String) (src : ScanSrc) (e : GoErr) :
    (DayTime.UnmarshalBinary none data = (none, some .objIsNil) ∧
     DayTime.UnmarshalText none data = (none, some .objIsNil) ∧
     DayTime.UnmarshalJSON none data = (none, some .objIsNil) ∧
     DayTime.UnmarshalCSV none data = (none, some .objIsNil) ∧
     DayTime.Scan none src = (none, some .objIsNil)) ∧
    ((Parse data).2 = some e →
      DayTime.UnmarshalBinary (some d) data = (some d, some (.wrap "parse" e)) ∧
      DayTime.UnmarshalText (some d) data = (some d, some (.wrap "parse" e)) ∧
      DayTime.UnmarshalJSON (some d) data = (some d, some (.wrap "parse" e)) ∧
      DayTime.UnmarshalCSV (some d) data = (some d, some (.wrap "parse" e)) ∧
      DayTime.Scan (some d) (.str data) = (some d, some (.wrap "parse" e)) ∧
      DayTime.Scan (some d) (.bytes data) = (some d, some (.wrap "parse" e))) ∧
    ((Parse data).2 = none →
      DayTime.UnmarshalBinary (some d) data = (some (Parse data).1, none) ∧
      DayTime.UnmarshalText (some d) data = (some (Parse data).1, none) ∧
      DayTime.UnmarshalJSON (some d) data = (some (Parse data).1, none) ∧
      DayTime.UnmarshalCSV (some d) data = (some (Parse data).1, none) ∧
      DayTime.Scan (some d) (.str data) = (some (Parse data).1, none) ∧
      DayTime.Scan (some d) (.bytes data) = (some (Parse data).1, none)) := by
  refine ⟨⟨rfl, rfl, rfl, rfl, rfl⟩, ?_, ?_⟩
  · intro hp
    refine ⟨?_, ?_, ?_, ?_, ?_, ?_⟩ <;>
      simp [DayTime.UnmarshalBinary, DayTime.UnmarshalText, DayTime.UnmarshalJSON,
        DayTime.UnmarshalCSV, DayTime.Scan, hp]
  · intro hp
    refine ⟨?_, ?_, ?_, ?_, ?_, ?_⟩ <;>
      simp [DayTime.UnmarshalBinary, DayTime.UnmarshalText, DayTime.UnmarshalJSON,
        DayTime.UnmarshalCSV, DayTime.Scan, hp]

/-- C5 witness: a failing decode at input xx leaves the pointee (1,2,3)
unchanged with the wrapped error, and a succeeding decode at 01:02:03
overwrites it. -/
theorem c5_decode_family_witness :
    DayTime.UnmarshalBinary (some ⟨1, 2, 3⟩) "xx"
      = (some ⟨1, 2, 3⟩, some (.wrap "parse" (.wrap "value 'xx'" .invalid))) ∧
    DayTime.UnmarshalText (some ⟨1, 2, 3⟩) "04:05:06"
      = (some (Parse "04:05:06").1, none) :=
  ⟨((c5_decode_family ⟨1, 2, 3⟩ "xx" (.str "xx")
      (.wrap "value 'xx'" .invalid)).2.1 (by decide)).1,
   ((c5_decode_family ⟨1, 2, 3⟩ "04:05:06" (.str "x") .invalid).2.2
      (by decide)).2.1⟩

/-- C7: Scan decodes a byte sequence and the equal text string
identically, and exactly as the other decode adapters decode that text;
01:02:03 in either shape yields (1,2,3); any other concrete type fails
with wrapped ErrUnexpected naming the encountered type and writes
nothing. -/
theorem c7_scan_shapes (d : DayTime) (s : String) (tyName : String) :
    DayTime.Scan (some d) (.bytes s) = DayTime.Scan (some d) (.str s) ∧
    DayTime.Scan (some d) (.str s) = DayTime.UnmarshalBinary (some d) s ∧
    DayTime.Scan (some d) (.str "01:02:03") = (some ⟨1, 2, 3⟩, none) ∧
    DayTime.Scan (some d) (.bytes "01:02:03") = (some ⟨1, 2, 3⟩, none) ∧
    DayTime.Scan (some d) (.other tyName)
      = (some d, some (.wrap ("type of value '" ++ tyName ++ "'") .unexpected)) ∧
    DayTime.Scan none (.other tyName) = (none, some .objIsNil) := by
  refine ⟨rfl, rfl, ?_, ?_, rfl, rfl⟩ <;>
    simp [DayTime.Scan, show Parse "01:02:03" = (⟨1, 2, 3⟩, none) from by decide]

/-- C3: Parse trims exactly space and tab from both ends (a newline is not
trimmed); it succeeds only when the trimmed text is two digits, colon, two
digits, optionally colon and two digits, and any other shape fails with a
wrapped ErrInvalid carrying the trimmed text; a shaped text parses through
New on its numeric components, a missing seconds component defaulting to
0; a structurally valid but out-of-range text like 24:02:03 fails with
exactly the Invalid error New produces. -/
theorem c3_parse_grammar :
    (∀ (s : String) (c : Char), isSpaceTab c = true →
      Parse (String.mk (c :: s.data)) = Parse s ∧
      Parse (String.mk (s.data ++ [c])) = Parse s) ∧
    Parse "\n01:02" = (⟨0, 0, 0⟩, some (.wrap "value '\n01:02'" .invalid)) ∧
    (∀ s : String,
      ¬(shapeHHMM (trimSpaceTab s).data ∨ shapeHHMMSS (trimSpaceTab s).data) →
      Parse s = (⟨0, 0, 0⟩,
        some (.wrap ("value '" ++ trimSpaceTab s ++ "'") .invalid))) ∧
    (∀ s : String, (Parse s).2 = none →
      shapeHHMM (trimSpaceTab s).data ∨ shapeHHMMSS (trimSpaceTab s).data) ∧
    (∀ a b c d : Char, isDigitChar a = true → isDigitChar b = true →
      isDigitChar c = true → isDigitChar d = true →
      Parse (String.mk [a, b, ':', c, d])
        = New (twoDigitVal a b) (twoDigitVal c d) 0) ∧
    (∀ a b c d e f : Char, isDigitChar a = true → isDigitChar b = true →
      isDigitChar c = true → isDigitChar d = true → isDigitChar e = true →
      isDigitChar f = true →
      Parse (String.mk [a, b, ':', c, d, ':', e, f])
        = New (twoDigitVal a b) (twoDigitVal c d) (twoDigitVal e f)) ∧
    Parse "24:02:03" = New 24 2 3 ∧
    New 24 2 3 = (⟨0, 0, 0⟩, some (.wrap "value of hour is 24" .invalid)) := by
  refine ⟨?_, by decide, ?_, ?_, ?_, ?_, by decide, by decide⟩
  · intro s c hc
    exact ⟨Parse_trim_congr (trim_cons hc s), Parse_trim_congr (trim_concat hc s)⟩
  · intro s hsh
    cases hx : matchesDaytimeRegex (trimSpaceTab s) with
    | false => exact Parse_nomatch hx
    | true => exact absurd ((daytimeRegexAccepts_iff _).mp hx) hsh
  · intro s hok
    exact (daytimeRegexAccepts_iff _).mp (Parse_ok_match hok)
  · intro a b c d ha hb hc hd
    exact Parse_shape5 ha hb hc hd (atoi_pair ha hb) (atoi_pair hc hd)
  · intro a b c d e f ha hb hc hd he hf
    exact Parse_shape8 ha hb hc hd he hf (atoi_pair ha hb) (atoi_pair hc hd)
      (atoi_pair he hf)

/-- C3 witness: a leading space is trimmed, a concrete shaped text goes
through New, and a shapeless text fails with the Invalid error. -/
theorem c3_parse_grammar_witness :
    Parse (String.mk (' ' :: ("01:02").data)) = Parse "01:02" ∧
    Parse (String.mk ['2', '4', ':', '0', '2'])
      = New (twoDigitVal '2' '4') (twoDigitVal '0' '2') 0 ∧
    Parse "xx" = (⟨0, 0, 0⟩,
      some (.wrap ("value '" ++ trimSpaceTab "xx" ++ "'") .invalid)) :=
  ⟨(c3_parse_grammar.1 "01:02" ' ' (by decide)).1,
   c3_parse_grammar.2.2.2.2.1 '2' '4' '0' '2' (by decide) (by decide)
     (by decide) (by decide),
   c3_parse_grammar.2.2.1 "xx" (by
     have hx : (trimSpaceTab "xx").data = ['x', 'x'] := rfl
     rw [hx]
     simp [shapeHHMM, shapeHHMMSS])⟩
